import Mathlib

/-!
Formal model of the NebulaCut timeline editing core (`src/App.tsx`).

Times, durations and zoom levels are modelled as rationals (`ℚ`); the
source manipulates finite JS numbers, and every claim under study is
about order/field arithmetic, not about floating-point rounding.
-/

namespace NebulaCut

/-- media kinds, `type MediaType = "video" | "audio" | "image"`. -/
inductive MediaType
  | video
  | audio
  | image
deriving DecidableEq, Repr

/-- track kinds, `type TrackType = "video" | "audio"`. -/
inductive TrackType
  | video
  | audio
deriving DecidableEq, Repr

/-- the `MediaAsset` record, restricted to the fields the timeline engine
reads (the object-URL / file handle fields play no role in geometry).
`hasAudioTrack` is optional in the source; absence behaves as `false`. -/
structure MediaAsset where
  id : String
  type : MediaType
  name : String
  duration : ℚ
  hasAudioTrack : Bool
deriving DecidableEq, Repr

/-- the `Track` record. -/
structure Track where
  id : String
  name : String
  type : TrackType
deriving DecidableEq, Repr

/-- the `Clip` record. -/
structure Clip where
  id : String
  trackId : String
  assetId : String
  start : ℚ
  offset : ℚ
  duration : ℚ
  gain : ℚ
deriving DecidableEq, Repr

def MIN_CLIP_DURATION : ℚ := 1/5

def EMPTY_TIMELINE_DURATION : ℚ := 12

def DEFAULT_IMAGE_DURATION : ℚ := 5

def TIMELINE_ZOOM_HARD_MIN : ℚ := 8

def TIMELINE_ZOOM_HARD_MAX : ℚ := 640

def TIMELINE_ZOOM_EMPTY_MIN : ℚ := 40

def TIMELINE_ZOOM_EMPTY_MAX : ℚ := 160

/-- the source clamp: `clamp(value, min, max) = Math.min(Math.max(value, min), max)`. -/
def clamp (value lo hi : ℚ) : ℚ := min (max value lo) hi

structure TimelineZoomRange where
  min : ℚ
  max : ℚ
deriving DecidableEq, Repr

/-- the `maxTimelineEnd` accumulator of `getTimelineZoomRange`: starts at
`EMPTY_TIMELINE_DURATION` and takes `Math.max` with the end of each clip. -/
def maxTimelineEnd (clips : List Clip) : ℚ :=
  clips.foldl (fun acc c => max acc (c.start + c.duration)) EMPTY_TIMELINE_DURATION

/-- the `minClipDuration` accumulator: starts at `Number.POSITIVE_INFINITY`
(modelled by `none`) and takes `Math.min` with each positive clip duration. -/
def minPositiveClipDuration (clips : List Clip) : Option ℚ :=
  clips.foldl
    (fun (acc : Option ℚ) (c : Clip) =>
      if 0 < c.duration then
        some (match acc with
          | none => c.duration
          | some m => min m c.duration)
      else acc)
    (none : Option ℚ)

/-- the `minClipDuration` value after the `Number.isFinite` fallback to `MIN_CLIP_DURATION`. -/
def shortestClipDuration (clips : List Clip) : ℚ :=
  (minPositiveClipDuration clips).getD MIN_CLIP_DURATION

/-- the zoom-out lower bound before widening:
`clamp(Math.max(360 / maxTimelineEnd, 2 / minClipDuration), TIMELINE_ZOOM_HARD_MIN, 120)`. -/
def zoomMinRaw (clips : List Clip) : ℚ :=
  clamp (max (360 / maxTimelineEnd clips) (2 / shortestClipDuration clips))
    TIMELINE_ZOOM_HARD_MIN 120

/-- the zoom-in upper bound before widening:
`clamp(320 / minClipDuration, TIMELINE_ZOOM_EMPTY_MAX, TIMELINE_ZOOM_HARD_MAX)`. -/
def zoomMaxRaw (clips : List Clip) : ℚ :=
  clamp (320 / shortestClipDuration clips) TIMELINE_ZOOM_EMPTY_MAX TIMELINE_ZOOM_HARD_MAX

/-- the source `getTimelineZoomRange(clips)`, including the degenerate-range widening
branch of the source. -/
def getTimelineZoomRange (clips : List Clip) : TimelineZoomRange :=
  match clips with
  | [] => { min := TIMELINE_ZOOM_EMPTY_MIN, max := TIMELINE_ZOOM_EMPTY_MAX }
  | _ :: _ =>
    if zoomMaxRaw clips < zoomMinRaw clips + 20 then
      -- widen `max` first (re-clamped), then pull `min` down if still degenerate
      if clamp (zoomMinRaw clips + 20) TIMELINE_ZOOM_EMPTY_MAX TIMELINE_ZOOM_HARD_MAX ≤
          zoomMinRaw clips then
        { min := max TIMELINE_ZOOM_HARD_MIN
            (clamp (zoomMinRaw clips + 20) TIMELINE_ZOOM_EMPTY_MAX TIMELINE_ZOOM_HARD_MAX - 20),
          max := clamp (zoomMinRaw clips + 20) TIMELINE_ZOOM_EMPTY_MAX TIMELINE_ZOOM_HARD_MAX }
      else
        { min := zoomMinRaw clips,
          max := clamp (zoomMinRaw clips + 20) TIMELINE_ZOOM_EMPTY_MAX TIMELINE_ZOOM_HARD_MAX }
    else
      { min := zoomMinRaw clips, max := zoomMaxRaw clips }

lemma zoomMinRaw_le (clips : List Clip) : zoomMinRaw clips ≤ 120 :=
  min_le_right _ _

lemma le_zoomMaxRaw (clips : List Clip) : (160 : ℚ) ≤ zoomMaxRaw clips := by
  refine le_min (le_trans ?_ (le_max_right _ _)) (by norm_num [TIMELINE_ZOOM_HARD_MAX])
  simp [TIMELINE_ZOOM_EMPTY_MAX]

/-- C8: for every clip list the derived zoom range has `min < max` (so in
particular the "clamped-equal at hard-limit saturation" escape hatch is never
needed), and the empty clip list yields the fixed default range 40–160. -/
theorem zoom_range_min_lt_max (clips : List Clip) :
    (getTimelineZoomRange clips).min < (getTimelineZoomRange clips).max ∧
    getTimelineZoomRange [] =
      { min := TIMELINE_ZOOM_EMPTY_MIN, max := TIMELINE_ZOOM_EMPTY_MAX } ∧
    TIMELINE_ZOOM_EMPTY_MIN = (40 : ℚ) ∧ TIMELINE_ZOOM_EMPTY_MAX = (160 : ℚ) := by
  refine ⟨?_, rfl, rfl, rfl⟩
  match clips with
  | [] =>
    simp [getTimelineZoomRange, TIMELINE_ZOOM_EMPTY_MIN, TIMELINE_ZOOM_EMPTY_MAX]
    norm_num
  | c :: cs =>
    have h1 : zoomMinRaw (c :: cs) ≤ 120 := zoomMinRaw_le _
    have h2 : (160 : ℚ) ≤ zoomMaxRaw (c :: cs) := le_zoomMaxRaw _
    have hcond : ¬ zoomMaxRaw (c :: cs) < zoomMinRaw (c :: cs) + 20 := by
      push_neg
      linarith
    simp only [getTimelineZoomRange, if_neg hcond]
    linarith

/-- drag interaction modes, `type DragMode = "move" | "trim-start" | "trim-end"`. -/
inductive DragMode
  | move
  | trimStart
  | trimEnd
deriving DecidableEq, Repr

/-- one `handlePointerMove` update applied to the drag-start snapshot of a
clip (`startStart`, `startOffset`, `startDuration` are the fields of the clip at
pointer-down; each pointer-move recomputes from that snapshot). `delta` is
the pointer displacement already divided by `pixelsPerSecond`. For image
clips the source sets `assetDuration = Number.POSITIVE_INFINITY`, which makes
the trim-start upper clamp `Math.min(startDuration - MIN, ∞) = startDuration
- MIN`; the image branches below resolve that infinity. -/
def handleDragUpdate (asset : MediaAsset) (c : Clip) (mode : DragMode) (delta : ℚ) : Clip :=
  let isImageClip := asset.type = MediaType.image
  match mode with
  | DragMode.move =>
    { c with start := max 0 (c.start + delta) }
  | DragMode.trimStart =>
    let minDelta := if isImageClip then -c.start else max (-c.start) (-c.offset)
    let maxDelta :=
      if isImageClip then c.duration - MIN_CLIP_DURATION
      else min (c.duration - MIN_CLIP_DURATION) (asset.duration - MIN_CLIP_DURATION - c.offset)
    let applied := clamp delta minDelta maxDelta
    { c with
      start := c.start + applied,
      offset := if isImageClip then c.offset else c.offset + applied,
      duration := c.duration - applied }
  | DragMode.trimEnd =>
    let minDelta := MIN_CLIP_DURATION - c.duration
    let maxDelta :=
      if isImageClip then 3600 - c.duration
      else asset.duration - c.offset - c.duration
    let applied := clamp delta minDelta maxDelta
    { c with duration := c.duration + applied }

/-- the state `handleSplitClip` reads and writes: the clip list and the
current selection (tracks pass through untouched). -/
structure EditorState where
  tracks : List Track
  clips : List Clip
  selectedClipId : Option String
deriving DecidableEq, Repr

inductive SplitError
  | SplitTooClose
deriving DecidableEq, Repr

/-- the second clip `handleSplitClip` appends: spread of the selected clip
with a fresh id, `start = splitPoint`, `duration = secondDuration`, and
`offset` advanced by `firstDuration` unless the asset is an image. -/
def splitSecondClip (selectedClip : Clip) (asset : MediaAsset) (splitPoint : ℚ)
    (newId : String) : Clip :=
  { selectedClip with
    id := newId,
    start := splitPoint,
    offset :=
      if asset.type = MediaType.image then selectedClip.offset
      else selectedClip.offset + (splitPoint - selectedClip.start),
    duration := selectedClip.duration - (splitPoint - selectedClip.start) }

/-- the source `handleSplitClip` for a selected clip at playhead `splitPoint`: on guard
failure it reports `SplitTooClose` and leaves the state untouched; on success
it truncates the selected clip to `firstDuration = splitPoint - start`,
appends `splitSecondClip`, and selects the new clip. -/
def handleSplitClip (st : EditorState) (selectedClip : Clip) (asset : MediaAsset)
    (splitPoint : ℚ) (newId : String) : EditorState × Option SplitError :=
  if splitPoint ≤ selectedClip.start + MIN_CLIP_DURATION ∨
      selectedClip.start + selectedClip.duration - MIN_CLIP_DURATION ≤ splitPoint then
    (st, some SplitError.SplitTooClose)
  else
    ({ st with
        clips :=
          (st.clips.map fun clip =>
            if clip.id = selectedClip.id then
              { clip with duration := splitPoint - selectedClip.start }
            else clip) ++
          [splitSecondClip selectedClip asset splitPoint newId],
        selectedClipId := some newId },
      none)

/-- the geometry invariants of §3 of the spec restricted to the fields the
claims quantify over: `duration ≥ MIN_CLIP_DURATION`, and for clips backed
by a non-image asset, `0 ≤ offset` and `offset + duration ≤ asset.duration`. -/
def ClipInvariant (asset : MediaAsset) (c : Clip) : Prop :=
  MIN_CLIP_DURATION ≤ c.duration ∧
    (asset.type ≠ MediaType.image → 0 ≤ c.offset ∧ c.offset + c.duration ≤ asset.duration)

instance (asset : MediaAsset) (c : Clip) : Decidable (ClipInvariant asset c) := by
  unfold ClipInvariant
  infer_instance

lemma clamp_le_hi (v lo hi : ℚ) : clamp v lo hi ≤ hi := min_le_right _ _

lemma lo_le_clamp (v lo hi : ℚ) (h : lo ≤ hi) : lo ≤ clamp v lo hi :=
  le_min (le_max_right _ _) h

lemma le_clamp_of_le_of_le (v lo hi a : ℚ) (h1 : a ≤ lo) (h2 : a ≤ hi) : a ≤ clamp v lo hi :=
  le_min (le_trans h1 (le_max_right _ _)) h2

lemma clamp_eq_lo (v lo hi : ℚ) (hlohi : lo ≤ hi) (h : v ≤ lo) : clamp v lo hi = lo := by
  rw [clamp, max_eq_right h, min_eq_left hlohi]

lemma clamp_eq_self (v lo hi : ℚ) (h1 : lo ≤ v) (h2 : v ≤ hi) : clamp v lo hi = v := by
  rw [clamp, max_eq_left h1, min_eq_left h2]

lemma clamp_eq_hi (v lo hi : ℚ) (h : hi ≤ v) : clamp v lo hi = hi :=
  min_eq_right (le_trans h (le_max_left _ _))

/-- C1: a clip whose drag-start snapshot satisfies the geometry invariants
still satisfies them after any single move / trim-start / trim-end pointer
update, and — whenever the split guard admits the chosen playhead — both
clips produced by the split satisfy them as well. The drag conjunct holds
for every invariant-satisfying clip; only the split conjunct is conditional
on the guard. -/
theorem drag_split_preserve_invariants (asset : MediaAsset) (c : Clip) (mode : DragMode)
    (delta splitPoint : ℚ) (newId : String) (ts : List Track)
    (h : ClipInvariant asset c) :
    ClipInvariant asset (handleDragUpdate asset c mode delta) ∧
    (c.start + MIN_CLIP_DURATION < splitPoint →
      splitPoint < c.start + c.duration - MIN_CLIP_DURATION →
      ∀ c2 ∈ (handleSplitClip ⟨ts, [c], some c.id⟩ c asset splitPoint newId).1.clips,
        ClipInvariant asset c2) := by
  obtain ⟨hdur, hoff⟩ := h
  have hMIN : (0 : ℚ) < MIN_CLIP_DURATION := by norm_num [MIN_CLIP_DURATION]
  constructor
  · cases mode with
    | move =>
      exact ⟨hdur, hoff⟩
    | trimStart =>
      by_cases himg : asset.type = MediaType.image
      · have hred : handleDragUpdate asset c DragMode.trimStart delta =
            { c with
              start := c.start + clamp delta (-c.start) (c.duration - MIN_CLIP_DURATION),
              offset := c.offset,
              duration := c.duration - clamp delta (-c.start) (c.duration - MIN_CLIP_DURATION) } := by
          simp [handleDragUpdate, himg]
        have happ : clamp delta (-c.start) (c.duration - MIN_CLIP_DURATION) ≤
            c.duration - MIN_CLIP_DURATION := clamp_le_hi _ _ _
        rw [hred]
        exact ⟨by show MIN_CLIP_DURATION ≤ c.duration - _; linarith,
          fun hne => absurd himg hne⟩
      · obtain ⟨h0off, hsum⟩ := hoff himg
        have hred : handleDragUpdate asset c DragMode.trimStart delta =
            { c with
              start := c.start + clamp delta (max (-c.start) (-c.offset))
                (min (c.duration - MIN_CLIP_DURATION)
                  (asset.duration - MIN_CLIP_DURATION - c.offset)),
              offset := c.offset + clamp delta (max (-c.start) (-c.offset))
                (min (c.duration - MIN_CLIP_DURATION)
                  (asset.duration - MIN_CLIP_DURATION - c.offset)),
              duration := c.duration - clamp delta (max (-c.start) (-c.offset))
                (min (c.duration - MIN_CLIP_DURATION)
                  (asset.duration - MIN_CLIP_DURATION - c.offset)) } := by
          simp [handleDragUpdate, himg]
        have hhi0 : (0 : ℚ) ≤ min (c.duration - MIN_CLIP_DURATION)
            (asset.duration - MIN_CLIP_DURATION - c.offset) :=
          le_min (by linarith) (by linarith)
        have happ1 : clamp delta (max (-c.start) (-c.offset))
            (min (c.duration - MIN_CLIP_DURATION)
              (asset.duration - MIN_CLIP_DURATION - c.offset)) ≤
            c.duration - MIN_CLIP_DURATION :=
          le_trans (clamp_le_hi _ _ _) (min_le_left _ _)
        have happ2 : -c.offset ≤ clamp delta (max (-c.start) (-c.offset))
            (min (c.duration - MIN_CLIP_DURATION)
              (asset.duration - MIN_CLIP_DURATION - c.offset)) :=
          le_clamp_of_le_of_le _ _ _ _ (le_max_right _ _) (by linarith)
        rw [hred]
        refine ⟨by show MIN_CLIP_DURATION ≤ c.duration - _; linarith, fun hne => ?_⟩
        exact ⟨by show (0 : ℚ) ≤ c.offset + _; linarith,
          by show c.offset + _ + (c.duration - _) ≤ asset.duration; linarith⟩
    | trimEnd =>
      by_cases himg : asset.type = MediaType.image
      · have hred : handleDragUpdate asset c DragMode.trimEnd delta =
            { c with
              duration := c.duration +
                clamp delta (MIN_CLIP_DURATION - c.duration) (3600 - c.duration) } := by
          simp [handleDragUpdate, himg]
        have hlohi : MIN_CLIP_DURATION - c.duration ≤ 3600 - c.duration := by
          norm_num [MIN_CLIP_DURATION]
        have happ : MIN_CLIP_DURATION - c.duration ≤
            clamp delta (MIN_CLIP_DURATION - c.duration) (3600 - c.duration) :=
          lo_le_clamp _ _ _ hlohi
        rw [hred]
        exact ⟨by show MIN_CLIP_DURATION ≤ c.duration + _; linarith,
          fun hne => absurd himg hne⟩
      · obtain ⟨h0off, hsum⟩ := hoff himg
        have hred : handleDragUpdate asset c DragMode.trimEnd delta =
            { c with
              duration := c.duration + clamp delta (MIN_CLIP_DURATION - c.duration)
                (asset.duration - c.offset - c.duration) } := by
          simp [handleDragUpdate, himg]
        have hlohi : MIN_CLIP_DURATION - c.duration ≤
            asset.duration - c.offset - c.duration := by linarith
        have happ1 : MIN_CLIP_DURATION - c.duration ≤
            clamp delta (MIN_CLIP_DURATION - c.duration)
              (asset.duration - c.offset - c.duration) := lo_le_clamp _ _ _ hlohi
        have happ2 : clamp delta (MIN_CLIP_DURATION - c.duration)
              (asset.duration - c.offset - c.duration) ≤
            asset.duration - c.offset - c.duration := clamp_le_hi _ _ _
        rw [hred]
        refine ⟨by show MIN_CLIP_DURATION ≤ c.duration + _; linarith, fun hne => ?_⟩
        exact ⟨h0off, by show c.offset + (c.duration + _) ≤ asset.duration; linarith⟩
  · intro hT1 hT2 c2 hc2
    have hguard : ¬ (splitPoint ≤ c.start + MIN_CLIP_DURATION ∨
        c.start + c.duration - MIN_CLIP_DURATION ≤ splitPoint) := by
      push_neg
      exact ⟨hT1, hT2⟩
    have hclips : (handleSplitClip ⟨ts, [c], some c.id⟩ c asset splitPoint newId).1.clips =
        [{ c with duration := splitPoint - c.start },
          splitSecondClip c asset splitPoint newId] := by
      unfold handleSplitClip
      rw [if_neg hguard]
      simp
    rw [hclips] at hc2
    simp only [List.mem_cons, List.not_mem_nil, or_false] at hc2
    rcases hc2 with rfl | rfl
    · refine ⟨by show MIN_CLIP_DURATION ≤ splitPoint - c.start; linarith, fun hne => ?_⟩
      obtain ⟨h0off, hsum⟩ := hoff hne
      exact ⟨h0off, by show c.offset + (splitPoint - c.start) ≤ asset.duration; linarith⟩
    · by_cases himg : asset.type = MediaType.image
      · refine ⟨?_, fun hne => absurd himg hne⟩
        show MIN_CLIP_DURATION ≤ c.duration - (splitPoint - c.start)
        linarith
      · obtain ⟨h0off, hsum⟩ := hoff himg
        have hsec : splitSecondClip c asset splitPoint newId =
            { c with
              id := newId,
              start := splitPoint,
              offset := c.offset + (splitPoint - c.start),
              duration := c.duration - (splitPoint - c.start) } := by
          simp [splitSecondClip, himg]
        rw [hsec]
        refine ⟨by show MIN_CLIP_DURATION ≤ c.duration - (splitPoint - c.start); linarith,
          fun hne => ?_⟩
        exact ⟨by show (0 : ℚ) ≤ c.offset + (splitPoint - c.start); linarith,
          by show c.offset + (splitPoint - c.start) + (c.duration - (splitPoint - c.start)) ≤
            asset.duration; linarith⟩

/-- a 10-second video asset used as a concrete test fixture. -/
def sampleVideoAsset : MediaAsset :=
  { id := "asset-1", type := MediaType.video, name := "vid", duration := 10,
    hasAudioTrack := false }

/-- a clip covering that whole asset, used as a concrete test fixture. -/
def sampleClip : Clip :=
  { id := "clip-1", trackId := "track-1", assetId := "asset-1",
    start := 0, offset := 0, duration := 10, gain := 1 }

/-- closed instantiation of `drag_split_preserve_invariants`: a valid clip
trim-started by one second, with the split conjunct at playhead 4. -/
theorem drag_split_preserve_invariants_witness :
    ClipInvariant sampleVideoAsset sampleClip ∧
    (ClipInvariant sampleVideoAsset
        (handleDragUpdate sampleVideoAsset sampleClip DragMode.trimStart (-1)) ∧
      (sampleClip.start + MIN_CLIP_DURATION < 4 →
        (4 : ℚ) < sampleClip.start + sampleClip.duration - MIN_CLIP_DURATION →
        ∀ c2 ∈ (handleSplitClip ⟨[], [sampleClip], some sampleClip.id⟩ sampleClip
            sampleVideoAsset 4 "clip-2").1.clips,
          ClipInvariant sampleVideoAsset c2)) :=
  ⟨⟨by norm_num [sampleClip, MIN_CLIP_DURATION],
      fun _ => by norm_num [sampleClip, sampleVideoAsset]⟩,
    drag_split_preserve_invariants sampleVideoAsset sampleClip DragMode.trimStart (-1) 4
      "clip-2" []
      ⟨by norm_num [sampleClip, MIN_CLIP_DURATION],
        fun _ => by norm_num [sampleClip, sampleVideoAsset]⟩⟩

/-- a 7-second video asset used in the trim-start scenario. -/
def trimAsset : MediaAsset :=
  { id := "asset-2", type := MediaType.video, name := "v", duration := 7,
    hasAudioTrack := false }

/-- a clip at timeline position 0 with trim-in point 2 and duration 5. -/
def trimClipAtZero : Clip :=
  { id := "clip-3", trackId := "t1", assetId := "asset-2",
    start := 0, offset := 2, duration := 5, gain := 1 }

/-- C3 counterexample: the claim says a trim-start delta is clamped below at
exactly `-offset₀`, so this clip (`offset₀ = 2, duration₀ = 5`) dragged left
by 3 seconds would get applied delta `-2` and final offset `0`; the code
clamps at `max(-start₀, -offset₀) = max(0, -2) = 0` because `start₀ = 0`,
leaving the offset at 2. -/
theorem trim_start_lower_clamp_counterexample :
    (handleDragUpdate trimAsset trimClipAtZero DragMode.trimStart (-3)).offset = 2 ∧
    (handleDragUpdate trimAsset trimClipAtZero DragMode.trimStart (-3)).offset ≠ 0 := by
  constructor <;>
    norm_num [handleDragUpdate, trimAsset, trimClipAtZero, clamp, MIN_CLIP_DURATION]

/-- C3 (amended): for a non-image-backed clip satisfying the geometry
invariants and `start ≥ 0`, the applied trim-start delta (recoverable as
`result.start - start₀`) is clamped below at `max(-start₀, -offset₀)` and
above at `min(duration₀ - MIN, assetDuration - MIN - offset₀)`, the offset
and duration move by exactly that applied delta, and the scenario of the spec
(`offset₀ = 2, duration₀ = 5`, drag left by more than 2s) yields applied
delta `-2` and final offset 0 provided additionally `start₀ ≥ 2`. -/
theorem trim_start_clamp_amended (asset : MediaAsset) (c : Clip) (delta : ℚ)
    (himg : asset.type ≠ MediaType.image)
    (hstart : 0 ≤ c.start) (hoff0 : 0 ≤ c.offset)
    (hdur : MIN_CLIP_DURATION ≤ c.duration)
    (hsum : c.offset + c.duration ≤ asset.duration) :
    (handleDragUpdate asset c DragMode.trimStart delta).offset =
      c.offset + ((handleDragUpdate asset c DragMode.trimStart delta).start - c.start) ∧
    (handleDragUpdate asset c DragMode.trimStart delta).duration =
      c.duration - ((handleDragUpdate asset c DragMode.trimStart delta).start - c.start) ∧
    max (-c.start) (-c.offset) ≤
      (handleDragUpdate asset c DragMode.trimStart delta).start - c.start ∧
    (handleDragUpdate asset c DragMode.trimStart delta).start - c.start ≤
      min (c.duration - MIN_CLIP_DURATION) (asset.duration - MIN_CLIP_DURATION - c.offset) ∧
    (delta ≤ max (-c.start) (-c.offset) →
      (handleDragUpdate asset c DragMode.trimStart delta).start - c.start =
        max (-c.start) (-c.offset)) ∧
    (max (-c.start) (-c.offset) ≤ delta →
      delta ≤ min (c.duration - MIN_CLIP_DURATION)
        (asset.duration - MIN_CLIP_DURATION - c.offset) →
      (handleDragUpdate asset c DragMode.trimStart delta).start - c.start = delta) ∧
    (min (c.duration - MIN_CLIP_DURATION) (asset.duration - MIN_CLIP_DURATION - c.offset) ≤
        delta →
      (handleDragUpdate asset c DragMode.trimStart delta).start - c.start =
        min (c.duration - MIN_CLIP_DURATION) (asset.duration - MIN_CLIP_DURATION - c.offset)) ∧
    (c.offset = 2 → c.duration = 5 → 2 ≤ c.start → delta < -2 →
      (handleDragUpdate asset c DragMode.trimStart delta).offset = 0 ∧
      (handleDragUpdate asset c DragMode.trimStart delta).start - c.start = -2) := by
  have hred : handleDragUpdate asset c DragMode.trimStart delta =
      { c with
        start := c.start + clamp delta (max (-c.start) (-c.offset))
          (min (c.duration - MIN_CLIP_DURATION)
            (asset.duration - MIN_CLIP_DURATION - c.offset)),
        offset := c.offset + clamp delta (max (-c.start) (-c.offset))
          (min (c.duration - MIN_CLIP_DURATION)
            (asset.duration - MIN_CLIP_DURATION - c.offset)),
        duration := c.duration - clamp delta (max (-c.start) (-c.offset))
          (min (c.duration - MIN_CLIP_DURATION)
            (asset.duration - MIN_CLIP_DURATION - c.offset)) } := by
    simp [handleDragUpdate, himg]
  have hMIN : (0 : ℚ) < MIN_CLIP_DURATION := by norm_num [MIN_CLIP_DURATION]
  have hs : (handleDragUpdate asset c DragMode.trimStart delta).start =
      c.start + clamp delta (max (-c.start) (-c.offset))
        (min (c.duration - MIN_CLIP_DURATION)
          (asset.duration - MIN_CLIP_DURATION - c.offset)) := by rw [hred]
  have hof : (handleDragUpdate asset c DragMode.trimStart delta).offset =
      c.offset + clamp delta (max (-c.start) (-c.offset))
        (min (c.duration - MIN_CLIP_DURATION)
          (asset.duration - MIN_CLIP_DURATION - c.offset)) := by rw [hred]
  have hdu : (handleDragUpdate asset c DragMode.trimStart delta).duration =
      c.duration - clamp delta (max (-c.start) (-c.offset))
        (min (c.duration - MIN_CLIP_DURATION)
          (asset.duration - MIN_CLIP_DURATION - c.offset)) := by rw [hred]
  have hlo0 : max (-c.start) (-c.offset) ≤ 0 :=
    max_le (by linarith) (by linarith)
  have hhi0 : (0 : ℚ) ≤ min (c.duration - MIN_CLIP_DURATION)
      (asset.duration - MIN_CLIP_DURATION - c.offset) :=
    le_min (by linarith) (by linarith)
  have hlohi : max (-c.start) (-c.offset) ≤
      min (c.duration - MIN_CLIP_DURATION)
        (asset.duration - MIN_CLIP_DURATION - c.offset) := le_trans hlo0 hhi0
  refine ⟨by rw [hof, hs]; ring, by rw [hdu, hs]; ring, ?_, ?_, ?_, ?_, ?_, ?_⟩
  · rw [hs]
    have := lo_le_clamp delta _ _ hlohi
    linarith
  · rw [hs]
    have := clamp_le_hi delta (max (-c.start) (-c.offset))
      (min (c.duration - MIN_CLIP_DURATION) (asset.duration - MIN_CLIP_DURATION - c.offset))
    linarith
  · intro hd
    rw [hs, clamp_eq_lo _ _ _ hlohi hd]
    ring
  · intro hd1 hd2
    rw [hs, clamp_eq_self _ _ _ hd1 hd2]
    ring
  · intro hd
    rw [hs, clamp_eq_hi _ _ _ hd]
    ring
  · intro h2 h5 hst hdel
    have hmax : max (-c.start) (-c.offset) = -2 := by
      rw [h2]
      exact max_eq_right (by linarith)
    have happ : clamp delta (max (-c.start) (-c.offset))
        (min (c.duration - MIN_CLIP_DURATION)
          (asset.duration - MIN_CLIP_DURATION - c.offset)) = -2 := by
      rw [hmax]
      exact clamp_eq_lo _ _ _ (by linarith) (by linarith)
    constructor
    · rw [hof, happ, h2]
      ring
    · rw [hs, happ]
      ring

/-- a clip sitting at timeline position 3, far enough from the origin for the
trim-start scenario to clamp at the asset boundary. -/
def trimClipAtThree : Clip :=
  { id := "clip-4", trackId := "t1", assetId := "asset-2",
    start := 3, offset := 2, duration := 5, gain := 1 }

/-- closed instantiation of `trim_start_clamp_amended` at the spec scenario:
`start₀ = 3, offset₀ = 2, duration₀ = 5`, dragged left by 5 seconds. -/
theorem trim_start_clamp_amended_witness :
    (trimAsset.type ≠ MediaType.image ∧ 0 ≤ trimClipAtThree.start ∧
      0 ≤ trimClipAtThree.offset ∧ MIN_CLIP_DURATION ≤ trimClipAtThree.duration ∧
      trimClipAtThree.offset + trimClipAtThree.duration ≤ trimAsset.duration) ∧
    ((handleDragUpdate trimAsset trimClipAtThree DragMode.trimStart (-5)).offset =
      trimClipAtThree.offset +
        ((handleDragUpdate trimAsset trimClipAtThree DragMode.trimStart (-5)).start -
          trimClipAtThree.start) ∧
    (handleDragUpdate trimAsset trimClipAtThree DragMode.trimStart (-5)).duration =
      trimClipAtThree.duration -
        ((handleDragUpdate trimAsset trimClipAtThree DragMode.trimStart (-5)).start -
          trimClipAtThree.start) ∧
    max (-trimClipAtThree.start) (-trimClipAtThree.offset) ≤
      (handleDragUpdate trimAsset trimClipAtThree DragMode.trimStart (-5)).start -
        trimClipAtThree.start ∧
    (handleDragUpdate trimAsset trimClipAtThree DragMode.trimStart (-5)).start -
        trimClipAtThree.start ≤
      min (trimClipAtThree.duration - MIN_CLIP_DURATION)
        (trimAsset.duration - MIN_CLIP_DURATION - trimClipAtThree.offset) ∧
    ((-5 : ℚ) ≤ max (-trimClipAtThree.start) (-trimClipAtThree.offset) →
      (handleDragUpdate trimAsset trimClipAtThree DragMode.trimStart (-5)).start -
        trimClipAtThree.start = max (-trimClipAtThree.start) (-trimClipAtThree.offset)) ∧
    (max (-trimClipAtThree.start) (-trimClipAtThree.offset) ≤ (-5 : ℚ) →
      (-5 : ℚ) ≤ min (trimClipAtThree.duration - MIN_CLIP_DURATION)
        (trimAsset.duration - MIN_CLIP_DURATION - trimClipAtThree.offset) →
      (handleDragUpdate trimAsset trimClipAtThree DragMode.trimStart (-5)).start -
        trimClipAtThree.start = -5) ∧
    (min (trimClipAtThree.duration - MIN_CLIP_DURATION)
        (trimAsset.duration - MIN_CLIP_DURATION - trimClipAtThree.offset) ≤ (-5 : ℚ) →
      (handleDragUpdate trimAsset trimClipAtThree DragMode.trimStart (-5)).start -
        trimClipAtThree.start =
        min (trimClipAtThree.duration - MIN_CLIP_DURATION)
          (trimAsset.duration - MIN_CLIP_DURATION - trimClipAtThree.offset)) ∧
    (trimClipAtThree.offset = 2 → trimClipAtThree.duration = 5 →
      2 ≤ trimClipAtThree.start → (-5 : ℚ) < -2 →
      (handleDragUpdate trimAsset trimClipAtThree DragMode.trimStart (-5)).offset = 0 ∧
      (handleDragUpdate trimAsset trimClipAtThree DragMode.trimStart (-5)).start -
        trimClipAtThree.start = -2)) :=
  ⟨⟨by simp [trimAsset], by norm_num [trimClipAtThree],
      by norm_num [trimClipAtThree], by norm_num [trimClipAtThree, MIN_CLIP_DURATION],
      by norm_num [trimClipAtThree, trimAsset]⟩,
    trim_start_clamp_amended trimAsset trimClipAtThree (-5) (by simp [trimAsset])
      (by norm_num [trimClipAtThree]) (by norm_num [trimClipAtThree])
      (by norm_num [trimClipAtThree, MIN_CLIP_DURATION])
      (by norm_num [trimClipAtThree, trimAsset])⟩

/-- C4: an accepted split succeeds, truncates the selected clip in place to
duration `T - start₀`, appends a second clip with `start = T`, the
complementary duration, the same track/asset/gain, offset advanced by the
first duration for non-image assets (unchanged for images), spans are
gap-free and overlap-free (first ends exactly at `T` where the second
starts, and the second ends exactly at the original end), and the selection
moves to the new clip. -/
theorem split_exactness (st : EditorState) (clip : Clip) (asset : MediaAsset)
    (T : ℚ) (newId : String)
    (h1 : clip.start + MIN_CLIP_DURATION < T)
    (h2 : T < clip.start + clip.duration - MIN_CLIP_DURATION) :
    (handleSplitClip st clip asset T newId).2 = none ∧
    (handleSplitClip st clip asset T newId).1.clips =
      (st.clips.map fun cl =>
        if cl.id = clip.id then { cl with duration := T - clip.start } else cl) ++
      [splitSecondClip clip asset T newId] ∧
    (splitSecondClip clip asset T newId).start = T ∧
    (splitSecondClip clip asset T newId).duration = clip.duration - (T - clip.start) ∧
    (splitSecondClip clip asset T newId).trackId = clip.trackId ∧
    (splitSecondClip clip asset T newId).assetId = clip.assetId ∧
    (splitSecondClip clip asset T newId).gain = clip.gain ∧
    (splitSecondClip clip asset T newId).offset =
      (if asset.type = MediaType.image then clip.offset
       else clip.offset + (T - clip.start)) ∧
    clip.start + (T - clip.start) = (splitSecondClip clip asset T newId).start ∧
    (splitSecondClip clip asset T newId).start +
      (splitSecondClip clip asset T newId).duration = clip.start + clip.duration ∧
    (handleSplitClip st clip asset T newId).1.selectedClipId = some newId := by
  have hguard : ¬ (T ≤ clip.start + MIN_CLIP_DURATION ∨
      clip.start + clip.duration - MIN_CLIP_DURATION ≤ T) := by
    push_neg
    exact ⟨h1, h2⟩
  unfold handleSplitClip
  rw [if_neg hguard]
  refine ⟨rfl, rfl, rfl, rfl, rfl, rfl, rfl, rfl,
    by show clip.start + (T - clip.start) = T; ring, ?_, rfl⟩
  show T + (clip.duration - (T - clip.start)) = clip.start + clip.duration
  ring

/-- closed instantiation of `split_exactness`: the spec scenario of a
10-second clip at `start = 0` split at `T = 4`. -/
theorem split_exactness_witness :
    (sampleClip.start + MIN_CLIP_DURATION < 4 ∧
      (4 : ℚ) < sampleClip.start + sampleClip.duration - MIN_CLIP_DURATION) ∧
    ((handleSplitClip ⟨[], [sampleClip], some sampleClip.id⟩ sampleClip sampleVideoAsset
        4 "clip-2").2 = none ∧
    (handleSplitClip ⟨[], [sampleClip], some sampleClip.id⟩ sampleClip sampleVideoAsset
        4 "clip-2").1.clips =
      (([sampleClip] : List Clip).map fun cl =>
        if cl.id = sampleClip.id then { cl with duration := 4 - sampleClip.start }
        else cl) ++
      [splitSecondClip sampleClip sampleVideoAsset 4 "clip-2"] ∧
    (splitSecondClip sampleClip sampleVideoAsset 4 "clip-2").start = 4 ∧
    (splitSecondClip sampleClip sampleVideoAsset 4 "clip-2").duration =
      sampleClip.duration - (4 - sampleClip.start) ∧
    (splitSecondClip sampleClip sampleVideoAsset 4 "clip-2").trackId =
      sampleClip.trackId ∧
    (splitSecondClip sampleClip sampleVideoAsset 4 "clip-2").assetId =
      sampleClip.assetId ∧
    (splitSecondClip sampleClip sampleVideoAsset 4 "clip-2").gain = sampleClip.gain ∧
    (splitSecondClip sampleClip sampleVideoAsset 4 "clip-2").offset =
      (if sampleVideoAsset.type = MediaType.image then sampleClip.offset
       else sampleClip.offset + (4 - sampleClip.start)) ∧
    sampleClip.start + (4 - sampleClip.start) =
      (splitSecondClip sampleClip sampleVideoAsset 4 "clip-2").start ∧
    (splitSecondClip sampleClip sampleVideoAsset 4 "clip-2").start +
      (splitSecondClip sampleClip sampleVideoAsset 4 "clip-2").duration =
      sampleClip.start + sampleClip.duration ∧
    (handleSplitClip ⟨[], [sampleClip], some sampleClip.id⟩ sampleClip sampleVideoAsset
        4 "clip-2").1.selectedClipId = some "clip-2") :=
  ⟨⟨by norm_num [sampleClip, MIN_CLIP_DURATION],
      by norm_num [sampleClip, MIN_CLIP_DURATION]⟩,
    split_exactness ⟨[], [sampleClip], some sampleClip.id⟩ sampleClip sampleVideoAsset
      4 "clip-2" (by norm_num [sampleClip, MIN_CLIP_DURATION])
      (by norm_num [sampleClip, MIN_CLIP_DURATION])⟩

/-- C5: `handleSplitClip` reports `SplitTooClose` exactly when the playhead
`T` falls outside the open interval
`(start + MIN_CLIP_DURATION, start + duration - MIN_CLIP_DURATION)` of the
selected clip, and when it fails the clip list and the selection are
returned untouched. -/
theorem split_too_close_iff (st : EditorState) (clip : Clip) (asset : MediaAsset)
    (T : ℚ) (newId : String) :
    ((handleSplitClip st clip asset T newId).2 = some SplitError.SplitTooClose ↔
      ¬ (clip.start + MIN_CLIP_DURATION < T ∧
        T < clip.start + clip.duration - MIN_CLIP_DURATION)) ∧
    ((handleSplitClip st clip asset T newId).2.isSome = true →
      (handleSplitClip st clip asset T newId).1 = st) := by
  by_cases hg : T ≤ clip.start + MIN_CLIP_DURATION ∨
      clip.start + clip.duration - MIN_CLIP_DURATION ≤ T
  · unfold handleSplitClip
    rw [if_pos hg]
    refine ⟨⟨fun _ => ?_, fun _ => rfl⟩, fun _ => rfl⟩
    rintro ⟨k1, k2⟩
    rcases hg with hg | hg <;> linarith
  · unfold handleSplitClip
    rw [if_neg hg]
    push_neg at hg
    refine ⟨⟨fun hx => absurd hx (by simp), fun hx => absurd ⟨hg.1, hg.2⟩ hx⟩, fun hx => ?_⟩
    simp at hx

inductive AddClipError
  | TrackKindMismatch
deriving DecidableEq, Repr

/-- the source `createTrack(type)`: fresh id, name `V<n>` / `A<n>` where `n` counts the
existing tracks of that kind plus one. -/
def createTrack (tracks : List Track) (ty : TrackType) (freshId : String) : Track :=
  { id := freshId,
    name := (if ty = TrackType.video then "V" else "A") ++
      toString ((tracks.filter fun t => decide (t.type = ty)).length + 1),
    type := ty }

/-- the source `ensureTrack(type)`: the first existing track of the kind, or a freshly
created one. Returns the resolved track together with the list of tracks the
call appends to the state (empty when one already existed). Both the lookup
and the creation read the captured `tracks` of the handler, which is why the
second `ensureTrack` call inside `handleAddClip` still searches the original
list. -/
def ensureTrackPick (tracks : List Track) (ty : TrackType) (freshId : String) :
    Track × List Track :=
  match tracks.find? (fun t => decide (t.type = ty)) with
  | some t => (t, [])
  | none => (createTrack tracks ty freshId, [createTrack tracks ty freshId])

/-- the `trackEnd` accumulator: `trackClips.reduce((acc, clip) => Math.max(acc, clip.start +
clip.duration), 0)` over the clips of the resolved track. -/
def trackEndOf (clips : List Clip) (trackId : String) : ℚ :=
  (clips.filter fun c => decide (c.trackId = trackId)).foldl
    (fun acc c => max acc (c.start + c.duration)) 0

/-- the `baseDuration` value: the fixed image default, else `Math.max(asset.duration ||
1, 1)` (the `||` turns a zero duration into 1 before the max). -/
def addClipBaseDuration (asset : MediaAsset) : ℚ :=
  if asset.type = MediaType.image then DEFAULT_IMAGE_DURATION
  else max (if asset.duration = 0 then 1 else asset.duration) 1

/-- the `nextClip` record `handleAddClip` builds on success. -/
def insertedClip (st : EditorState) (asset : MediaAsset) (targetTrackType : TrackType)
    (newTrackId newClipId : String) : Clip :=
  { id := newClipId,
    trackId := (ensureTrackPick st.tracks targetTrackType newTrackId).1.id,
    assetId := asset.id,
    start := trackEndOf st.clips (ensureTrackPick st.tracks targetTrackType newTrackId).1.id,
    offset := 0,
    duration := max (addClipBaseDuration asset) MIN_CLIP_DURATION,
    gain := 1 }

/-- the source `handleAddClip(asset, targetTrackType)`: rejects kind mismatches with the
state untouched; otherwise resolves (or lazily creates) the track, appends
`nextClip` (plus, for a video asset with an embedded audio track inserted on
a video track, a companion audio clip with identical geometry), and selects
the new clip. -/
def handleAddClip (st : EditorState) (asset : MediaAsset) (targetTrackType : TrackType)
    (newTrackId newClipId companionTrackId companionClipId : String) :
    EditorState × Option AddClipError :=
  if targetTrackType = TrackType.video ∧ asset.type = MediaType.audio then
    (st, some AddClipError.TrackKindMismatch)
  else if targetTrackType = TrackType.audio ∧ asset.type ≠ MediaType.audio ∧
      ¬ (asset.type = MediaType.video ∧ asset.hasAudioTrack = true) then
    (st, some AddClipError.TrackKindMismatch)
  else
    let picked := ensureTrackPick st.tracks targetTrackType newTrackId
    let nextClip := insertedClip st asset targetTrackType newTrackId newClipId
    if targetTrackType = TrackType.video ∧ asset.type = MediaType.video ∧
        asset.hasAudioTrack = true then
      let pickedAudio := ensureTrackPick st.tracks TrackType.audio companionTrackId
      let companion : Clip :=
        { id := companionClipId,
          trackId := pickedAudio.1.id,
          assetId := asset.id,
          start := nextClip.start,
          offset := nextClip.offset,
          duration := nextClip.duration,
          gain := 1 }
      ({ tracks := st.tracks ++ picked.2 ++ pickedAudio.2,
         clips := st.clips ++ [nextClip, companion],
         selectedClipId := some newClipId }, none)
    else
      ({ tracks := st.tracks ++ picked.2,
         clips := st.clips ++ [nextClip],
         selectedClipId := some newClipId }, none)

/-- C6: `handleAddClip` fails with `TrackKindMismatch` — leaving the whole
state untouched — exactly when an audio-only asset targets a video track, or
a non-audio asset that is not a video asset carrying an embedded audio track
targets an audio track. -/
theorem add_clip_mismatch_iff (st : EditorState) (asset : MediaAsset)
    (targetTrackType : TrackType) (newTrackId newClipId companionTrackId
    companionClipId : String) :
    ((handleAddClip st asset targetTrackType newTrackId newClipId companionTrackId
        companionClipId).2 = some AddClipError.TrackKindMismatch ↔
      ((targetTrackType = TrackType.video ∧ asset.type = MediaType.audio) ∨
        (targetTrackType = TrackType.audio ∧ asset.type ≠ MediaType.audio ∧
          ¬ (asset.type = MediaType.video ∧ asset.hasAudioTrack = true)))) ∧
    ((handleAddClip st asset targetTrackType newTrackId newClipId companionTrackId
        companionClipId).2.isSome = true →
      (handleAddClip st asset targetTrackType newTrackId newClipId companionTrackId
        companionClipId).1 = st) := by
  unfold handleAddClip
  by_cases hva : targetTrackType = TrackType.video ∧ asset.type = MediaType.audio
  · rw [if_pos hva]
    exact ⟨⟨fun _ => Or.inl hva, fun _ => rfl⟩, fun _ => rfl⟩
  · rw [if_neg hva]
    by_cases hav : targetTrackType = TrackType.audio ∧ asset.type ≠ MediaType.audio ∧
        ¬ (asset.type = MediaType.video ∧ asset.hasAudioTrack = true)
    · rw [if_pos hav]
      exact ⟨⟨fun _ => Or.inr hav, fun _ => rfl⟩, fun _ => rfl⟩
    · rw [if_neg hav]
      by_cases hcomp : targetTrackType = TrackType.video ∧ asset.type = MediaType.video ∧
          asset.hasAudioTrack = true
      · rw [if_pos hcomp]
        refine ⟨⟨fun hx => absurd hx (by simp), fun hx => ?_⟩, fun hx => ?_⟩
        · exfalso
          rcases hx with hx | hx
          · exact hva hx
          · exact hav hx
        · simp at hx
      · rw [if_neg hcomp]
        refine ⟨⟨fun hx => absurd hx (by simp), fun hx => ?_⟩, fun hx => ?_⟩
        · exfalso
          rcases hx with hx | hx
          · exact hva hx
          · exact hav hx
        · simp at hx

lemma foldl_max_init_le (l : List Clip) (a : ℚ) :
    a ≤ l.foldl (fun acc x => max acc (x.start + x.duration)) a := by
  induction l generalizing a with
  | nil => exact le_refl a
  | cons x xs ih =>
    simp only [List.foldl_cons]
    exact le_trans (le_max_left _ _) (ih _)

lemma foldl_max_le_of_mem (l : List Clip) (c : Clip) :
    c ∈ l → ∀ a : ℚ,
      c.start + c.duration ≤ l.foldl (fun acc x => max acc (x.start + x.duration)) a := by
  induction l with
  | nil => intro hc; cases hc
  | cons x xs ih =>
    intro hc a
    simp only [List.foldl_cons]
    rcases List.mem_cons.mp hc with h | hmem
    · subst h
      exact le_trans (le_max_right _ _) (foldl_max_init_le xs _)
    · exact ih hmem _

lemma foldl_max_eq_init_or_mem (l : List Clip) :
    ∀ a : ℚ, l.foldl (fun acc x => max acc (x.start + x.duration)) a = a ∨
      ∃ c ∈ l, l.foldl (fun acc x => max acc (x.start + x.duration)) a =
        c.start + c.duration := by
  induction l with
  | nil => intro a; exact Or.inl rfl
  | cons x xs ih =>
    intro a
    simp only [List.foldl_cons]
    rcases ih (max a (x.start + x.duration)) with h | ⟨c, hc, h⟩
    · rcases max_cases a (x.start + x.duration) with ⟨h2, _⟩ | ⟨h2, _⟩
      · exact Or.inl (h.trans h2)
      · exact Or.inr ⟨x, List.mem_cons_self _ _, h.trans h2⟩
    · exact Or.inr ⟨c, List.mem_cons_of_mem _ hc, h⟩

/-- an audio-only asset whose source is half a second long. -/
def halfSecondAudioAsset : MediaAsset :=
  { id := "asset-3", type := MediaType.audio, name := "snd", duration := 1/2,
    hasAudioTrack := false }

/-- an existing empty audio track. -/
def audioTrackFixture : Track :=
  { id := "t-a1", name := "A1", type := TrackType.audio }

/-- C2 counterexample: inserting a half-second audio asset yields a clip of
duration `Math.max(asset.duration || 1, 1) = 1`, not the claimed
`max(asset.duration, MIN_CLIP_DURATION) = 1/2` — the code floors non-image
durations at one second, not at `MIN_CLIP_DURATION`. -/
theorem add_clip_duration_counterexample :
    ((handleAddClip ⟨[audioTrackFixture], [], none⟩ halfSecondAudioAsset TrackType.audio
        "nt" "nc" "ct" "cc").1.clips.map Clip.duration = [1]) ∧
    ¬ (max halfSecondAudioAsset.duration MIN_CLIP_DURATION = 1) := by
  constructor
  · have g1 : ¬ (TrackType.audio = TrackType.video ∧
        halfSecondAudioAsset.type = MediaType.audio) := by simp
    have g2 : ¬ (TrackType.audio = TrackType.audio ∧
        halfSecondAudioAsset.type ≠ MediaType.audio ∧
        ¬ (halfSecondAudioAsset.type = MediaType.video ∧
          halfSecondAudioAsset.hasAudioTrack = true)) := by
      simp [halfSecondAudioAsset]
    have g3 : ¬ (TrackType.audio = TrackType.video ∧
        halfSecondAudioAsset.type = MediaType.video ∧
        halfSecondAudioAsset.hasAudioTrack = true) := by simp
    simp only [handleAddClip, halfSecondAudioAsset, audioTrackFixture, insertedClip,
      ensureTrackPick, createTrack, trackEndOf, addClipBaseDuration,
      DEFAULT_IMAGE_DURATION, MIN_CLIP_DURATION]
    rw [if_neg (show ¬ TrackType.audio = TrackType.video by decide),
      if_neg (show ¬ MediaType.audio = MediaType.image by decide)]
    norm_num
    rw [if_neg (show ¬ TrackType.audio = TrackType.video by decide)]
    rfl
  · norm_num [halfSecondAudioAsset, MIN_CLIP_DURATION]

/-- C2 (amended): an accepted insert-clip succeeds and appends a clip with
`offset = 0`, `start` equal to the supremum (floored at 0 by the initial fold accumulator) of `start + duration` over the existing clips of the
resolved track — an upper bound that is 0 or attained by one of those clips
— and duration `DEFAULT_IMAGE_DURATION = 5` for image assets, or
`max(asset.duration, 1)` for non-image assets: the duration floor is one
second, which subsumes the claimed `MIN_CLIP_DURATION` floor. -/
theorem add_clip_success_fields (st : EditorState) (asset : MediaAsset)
    (targetTrackType : TrackType)
    (newTrackId newClipId companionTrackId companionClipId : String)
    (hv : ¬ (targetTrackType = TrackType.video ∧ asset.type = MediaType.audio))
    (ha : ¬ (targetTrackType = TrackType.audio ∧ asset.type ≠ MediaType.audio ∧
      ¬ (asset.type = MediaType.video ∧ asset.hasAudioTrack = true))) :
    (handleAddClip st asset targetTrackType newTrackId newClipId companionTrackId
      companionClipId).2 = none ∧
    (∃ rest, (handleAddClip st asset targetTrackType newTrackId newClipId companionTrackId
        companionClipId).1.clips =
      st.clips ++ insertedClip st asset targetTrackType newTrackId newClipId :: rest) ∧
    (insertedClip st asset targetTrackType newTrackId newClipId).offset = 0 ∧
    0 ≤ (insertedClip st asset targetTrackType newTrackId newClipId).start ∧
    (∀ c ∈ st.clips,
      c.trackId = (ensureTrackPick st.tracks targetTrackType newTrackId).1.id →
      c.start + c.duration ≤
        (insertedClip st asset targetTrackType newTrackId newClipId).start) ∧
    ((insertedClip st asset targetTrackType newTrackId newClipId).start = 0 ∨
      ∃ c ∈ st.clips,
        c.trackId = (ensureTrackPick st.tracks targetTrackType newTrackId).1.id ∧
        (insertedClip st asset targetTrackType newTrackId newClipId).start =
          c.start + c.duration) ∧
    (asset.type = MediaType.image →
      (insertedClip st asset targetTrackType newTrackId newClipId).duration =
        DEFAULT_IMAGE_DURATION) ∧
    (asset.type ≠ MediaType.image →
      (insertedClip st asset targetTrackType newTrackId newClipId).duration =
        max asset.duration 1) := by
  refine ⟨?_, ?_, rfl, ?_, ?_, ?_, ?_, ?_⟩
  · simp only [handleAddClip]
    rw [if_neg hv, if_neg ha]
    by_cases hcomp : targetTrackType = TrackType.video ∧ asset.type = MediaType.video ∧
        asset.hasAudioTrack = true
    · rw [if_pos hcomp]
    · rw [if_neg hcomp]
  · simp only [handleAddClip]
    rw [if_neg hv, if_neg ha]
    by_cases hcomp : targetTrackType = TrackType.video ∧ asset.type = MediaType.video ∧
        asset.hasAudioTrack = true
    · rw [if_pos hcomp]
      exact ⟨_, rfl⟩
    · rw [if_neg hcomp]
      exact ⟨_, rfl⟩
  · show (0 : ℚ) ≤ (st.clips.filter fun c =>
        decide (c.trackId = (ensureTrackPick st.tracks targetTrackType newTrackId).1.id)).foldl
      (fun acc x => max acc (x.start + x.duration)) 0
    exact foldl_max_init_le _ _
  · intro c hc htid
    show c.start + c.duration ≤ (st.clips.filter fun x =>
        decide (x.trackId = (ensureTrackPick st.tracks targetTrackType newTrackId).1.id)).foldl
      (fun acc x => max acc (x.start + x.duration)) 0
    exact foldl_max_le_of_mem _ _ (List.mem_filter.mpr ⟨hc, by simp [htid]⟩) 0
  · rcases foldl_max_eq_init_or_mem (st.clips.filter fun x =>
        decide (x.trackId = (ensureTrackPick st.tracks targetTrackType newTrackId).1.id)) 0
      with h | ⟨c, hcf, h⟩
    · exact Or.inl h
    · rcases List.mem_filter.mp hcf with ⟨hmem, hp⟩
      exact Or.inr ⟨c, hmem, by simpa using hp, h⟩
  · intro himg
    show max (addClipBaseDuration asset) MIN_CLIP_DURATION = DEFAULT_IMAGE_DURATION
    rw [addClipBaseDuration, if_pos himg]
    norm_num [DEFAULT_IMAGE_DURATION, MIN_CLIP_DURATION]
  · intro himg
    show max (addClipBaseDuration asset) MIN_CLIP_DURATION = max asset.duration 1
    rw [addClipBaseDuration, if_neg himg]
    by_cases hd : asset.duration = 0
    · rw [if_pos hd, hd]
      norm_num [MIN_CLIP_DURATION]
    · rw [if_neg hd]
      exact max_eq_left
        (le_trans (by norm_num [MIN_CLIP_DURATION]) (le_max_right asset.duration 1))

/-- closed instantiation of `add_clip_success_fields`: the half-second audio
asset inserted onto the existing audio track of an empty project. -/
theorem add_clip_success_fields_witness :
    ((¬ (TrackType.audio = TrackType.video ∧
        halfSecondAudioAsset.type = MediaType.audio)) ∧
      ¬ (TrackType.audio = TrackType.audio ∧
        halfSecondAudioAsset.type ≠ MediaType.audio ∧
        ¬ (halfSecondAudioAsset.type = MediaType.video ∧
          halfSecondAudioAsset.hasAudioTrack = true))) ∧
    ((handleAddClip ⟨[audioTrackFixture], [], none⟩ halfSecondAudioAsset TrackType.audio
      "nt" "nc" "ct" "cc").2 = none ∧
    (∃ rest, (handleAddClip ⟨[audioTrackFixture], [], none⟩ halfSecondAudioAsset
        TrackType.audio "nt" "nc" "ct" "cc").1.clips =
      ([] : List Clip) ++ insertedClip ⟨[audioTrackFixture], [], none⟩ halfSecondAudioAsset
        TrackType.audio "nt" "nc" :: rest) ∧
    (insertedClip ⟨[audioTrackFixture], [], none⟩ halfSecondAudioAsset TrackType.audio
      "nt" "nc").offset = 0 ∧
    0 ≤ (insertedClip ⟨[audioTrackFixture], [], none⟩ halfSecondAudioAsset TrackType.audio
      "nt" "nc").start ∧
    (∀ c ∈ ([] : List Clip),
      c.trackId = (ensureTrackPick [audioTrackFixture] TrackType.audio "nt").1.id →
      c.start + c.duration ≤
        (insertedClip ⟨[audioTrackFixture], [], none⟩ halfSecondAudioAsset TrackType.audio
          "nt" "nc").start) ∧
    ((insertedClip ⟨[audioTrackFixture], [], none⟩ halfSecondAudioAsset TrackType.audio
        "nt" "nc").start = 0 ∨
      ∃ c ∈ ([] : List Clip),
        c.trackId = (ensureTrackPick [audioTrackFixture] TrackType.audio "nt").1.id ∧
        (insertedClip ⟨[audioTrackFixture], [], none⟩ halfSecondAudioAsset TrackType.audio
          "nt" "nc").start = c.start + c.duration) ∧
    (halfSecondAudioAsset.type = MediaType.image →
      (insertedClip ⟨[audioTrackFixture], [], none⟩ halfSecondAudioAsset TrackType.audio
        "nt" "nc").duration = DEFAULT_IMAGE_DURATION) ∧
    (halfSecondAudioAsset.type ≠ MediaType.image →
      (insertedClip ⟨[audioTrackFixture], [], none⟩ halfSecondAudioAsset TrackType.audio
        "nt" "nc").duration = max halfSecondAudioAsset.duration 1)) :=
  ⟨⟨by simp, by simp [halfSecondAudioAsset]⟩,
    add_clip_success_fields ⟨[audioTrackFixture], [], none⟩ halfSecondAudioAsset
      TrackType.audio "nt" "nc" "ct" "cc" (by simp) (by simp [halfSecondAudioAsset])⟩

/-- the clip-repair filter of `loadProjectContent`: a parsed clip survives
exactly when its `trackId` is among the loaded track ids, its `assetId` is
among the loaded asset ids, and none of `start < 0`, `offset < 0`,
`duration < MIN_CLIP_DURATION` holds. -/
def loadProjectClips (trackIds assetIds : List String) (clips : List Clip) : List Clip :=
  clips.filter fun clip =>
    (trackIds.contains clip.trackId && assetIds.contains clip.assetId) &&
      !(decide (clip.start < 0) || decide (clip.offset < 0) ||
        decide (clip.duration < MIN_CLIP_DURATION))

/-- the `nextSelectedClipId` computation of `loadProjectContent`:
`parsedProject.state.selectedClipId && nextClips.some(...) ? id : null`.
The leading `&&` is a JS truthiness test, so a stored selection that is the
empty string is falsy and resets to null even if a clip with id `""`
survives; a nonempty selection is kept exactly when a surviving clip
carries that id. -/
def loadProjectSelection (sel : Option String) (nextClips : List Clip) : Option String :=
  match sel with
  | some s =>
    if s = "" then none
    else if nextClips.any fun c => c.id == s then some s
    else none
  | none => none

lemma mem_loadProjectClips (trackIds assetIds : List String) (clips : List Clip)
    (c : Clip) :
    c ∈ loadProjectClips trackIds assetIds clips ↔
      c ∈ clips ∧ trackIds.contains c.trackId = true ∧
        assetIds.contains c.assetId = true ∧ 0 ≤ c.start ∧ 0 ≤ c.offset ∧
        MIN_CLIP_DURATION ≤ c.duration := by
  simp only [loadProjectClips, List.mem_filter, Bool.and_eq_true, Bool.not_eq_true',
    Bool.or_eq_false_iff, decide_eq_false_iff_not, not_lt]
  tauto

/-- C7 counterexample: a clip with a valid track reference, a valid asset
reference and duration 1 ≥ MIN_CLIP_DURATION, but `start = -1`, is dropped
by the load filter even though the claim says only dangling references and
short durations are dropped. -/
theorem load_drop_counterexample :
    loadProjectClips ["t1"] ["a1"]
      [{ id := "c1", trackId := "t1", assetId := "a1",
         start := -1, offset := 0, duration := 1, gain := 1 }] = [] ∧
    (["t1"].contains ("t1" : String) = true ∧ ["a1"].contains ("a1" : String) = true ∧
      MIN_CLIP_DURATION ≤ (1 : ℚ)) := by
  refine ⟨?_, by decide, by decide, by norm_num [MIN_CLIP_DURATION]⟩
  norm_num [loadProjectClips, MIN_CLIP_DURATION]

/-- C7 (amended): the load filter drops exactly the clips with a missing
track or asset reference, a negative `start`, a negative `offset`, or a
duration below `MIN_CLIP_DURATION`; every surviving clip is kept with its
field values intact (the output is a sublist of the input); an absent or
empty-string stored selection resets to none (the empty string is falsy in
the source truthiness guard), and a nonempty stored selection is kept
exactly when the selected clip survived, otherwise reset to none. -/
theorem load_repair_characterization (trackIds assetIds : List String)
    (clips : List Clip) :
    (∀ c : Clip, c ∈ loadProjectClips trackIds assetIds clips ↔
      c ∈ clips ∧ trackIds.contains c.trackId = true ∧
        assetIds.contains c.assetId = true ∧ 0 ≤ c.start ∧ 0 ≤ c.offset ∧
        MIN_CLIP_DURATION ≤ c.duration) ∧
    (loadProjectClips trackIds assetIds clips).Sublist clips ∧
    (loadProjectSelection none (loadProjectClips trackIds assetIds clips) = none) ∧
    (loadProjectSelection (some "") (loadProjectClips trackIds assetIds clips) = none) ∧
    (∀ s : String, s ≠ "" →
      ((∃ c ∈ loadProjectClips trackIds assetIds clips, c.id = s) →
        loadProjectSelection (some s) (loadProjectClips trackIds assetIds clips) =
          some s) ∧
      ((¬ ∃ c ∈ loadProjectClips trackIds assetIds clips, c.id = s) →
        loadProjectSelection (some s) (loadProjectClips trackIds assetIds clips) =
          none)) := by
  refine ⟨mem_loadProjectClips trackIds assetIds clips, List.filter_sublist _, rfl, rfl, ?_⟩
  intro s hs
  constructor
  · intro hex
    have : (loadProjectClips trackIds assetIds clips).any (fun c => c.id == s) = true := by
      rcases hex with ⟨c, hc, hid⟩
      exact List.any_eq_true.mpr ⟨c, hc, by simp [hid]⟩
    simp [loadProjectSelection, hs, this]
  · intro hex
    have : (loadProjectClips trackIds assetIds clips).any (fun c => c.id == s) = false := by
      by_contra hb
      rcases List.any_eq_true.mp (Bool.of_not_eq_false hb) with ⟨c, hc, hid⟩
      exact hex ⟨c, hc, by simpa using hid⟩
    simp [loadProjectSelection, hs, this]

/-- C10: every clip surviving the load filter has `start ≥ 0`, `offset ≥ 0`,
`duration ≥ MIN_CLIP_DURATION`, and valid track and asset references. -/
theorem load_survivors_well_formed (trackIds assetIds : List String)
    (clips : List Clip) (c : Clip)
    (hc : c ∈ loadProjectClips trackIds assetIds clips) :
    0 ≤ c.start ∧ 0 ≤ c.offset ∧ MIN_CLIP_DURATION ≤ c.duration ∧
      trackIds.contains c.trackId = true ∧ assetIds.contains c.assetId = true := by
  rcases (mem_loadProjectClips trackIds assetIds clips c).mp hc with
    ⟨_, ht, ha, hs, ho, hd⟩
  exact ⟨hs, ho, hd, ht, ha⟩

/-- a well-formed clip that survives the load filter. -/
def survivorClip : Clip :=
  { id := "c2", trackId := "t1", assetId := "a1",
    start := 0, offset := 0, duration := 1, gain := 1 }

/-- closed instantiation of `load_survivors_well_formed` on a surviving clip. -/
theorem load_survivors_well_formed_witness :
    survivorClip ∈ loadProjectClips ["t1"] ["a1"] [survivorClip] ∧
    (0 ≤ survivorClip.start ∧ 0 ≤ survivorClip.offset ∧
      MIN_CLIP_DURATION ≤ survivorClip.duration ∧
      ["t1"].contains survivorClip.trackId = true ∧
      ["a1"].contains survivorClip.assetId = true) :=
  have hmem : survivorClip ∈ loadProjectClips ["t1"] ["a1"] [survivorClip] := by
    rw [mem_loadProjectClips]
    refine ⟨by simp, by decide, by decide, ?_, ?_, ?_⟩ <;>
      norm_num [survivorClip, MIN_CLIP_DURATION]
  ⟨hmem, load_survivors_well_formed ["t1"] ["a1"] [survivorClip] survivorClip hmem⟩

/-- one tick of the playback clock: `next = prev + delta`; when `next`
reaches `timelineDuration` the playhead clamps there and playback stops,
otherwise the playhead advances and playback continues. The boolean is the
`isPlaying` flag after the tick (the effect only runs while playing). -/
def playbackStep (playhead delta timelineDuration : ℚ) : ℚ × Bool :=
  if timelineDuration ≤ playhead + delta then (timelineDuration, false)
  else (playhead + delta, true)

/-- C9: while playing, a clock tick with positive wall-clock delta advances
the playhead by exactly that delta when the sum stays below the timeline
duration, and otherwise clamps the playhead to the timeline duration and
stops playback; in both cases the new playhead never exceeds the timeline
duration. -/
theorem playback_step_spec (playhead delta timelineDuration : ℚ)
    (hdelta : 0 < delta) :
    (playhead + delta < timelineDuration →
      playbackStep playhead delta timelineDuration = (playhead + delta, true)) ∧
    (timelineDuration ≤ playhead + delta →
      playbackStep playhead delta timelineDuration = (timelineDuration, false)) ∧
    (playbackStep playhead delta timelineDuration).1 ≤ timelineDuration := by
  by_cases h : timelineDuration ≤ playhead + delta
  · rw [playbackStep, if_pos h]
    exact ⟨fun hlt => absurd h (not_le.mpr hlt), fun _ => rfl, le_refl _⟩
  · rw [playbackStep, if_neg h]
    exact ⟨fun _ => rfl, fun hle => absurd hle h, le_of_lt (not_le.mp h)⟩

/-- closed instantiation of `playback_step_spec`: a playhead at 3 stepped by
one second against a 12-second timeline. -/
theorem playback_step_spec_witness :
    (0 : ℚ) < 1 ∧
    (((3 : ℚ) + 1 < 12 → playbackStep 3 1 12 = (3 + 1, true)) ∧
      ((12 : ℚ) ≤ 3 + 1 → playbackStep 3 1 12 = (12, false)) ∧
      (playbackStep 3 1 12).1 ≤ 12) :=
  ⟨by norm_num, playback_step_spec 3 1 12 (by norm_num)⟩

end NebulaCut
